import Mathlib

/-!
# NubemDom receipt-parsing core: shallow embedding and verification

This file embeds the receipt-text parsing and classification engine of the
NubemDom backend (`VisionService`: `parseReceiptData`, `extractVendor`,
`extractDate`, `extractTotal`, `extractItems`, `isHeaderOrFooter`,
`categorizeExpense`) into Lean and proves the specified properties.

Modelling conventions:
* JavaScript strings are modelled as `List Char` (`Str`).
* JavaScript numbers are modelled by `JsNum`: `NaN`, the two infinities, or an
  exact rational.  Decimal literals parse to exact rationals; every comparison
  performed by the code (`> 0`, equality with short decimal literals) agrees
  with IEEE-754 double semantics on the numeric strings the code manipulates.
* Each regular expression used by the source is embedded as a dedicated
  matching function implementing the exact JavaScript semantics of that
  pattern: leftmost match, greedy/lazy backtracking priority, and the
  unanchored-search behaviour of `String.prototype.match`.
* `new Date().toISOString()` is modelled by passing the current date as an
  explicit `(year, month, day)` argument.
-/

set_option maxRecDepth 10000

namespace NubemDom

/-- JavaScript strings, modelled as lists of characters. -/
abbrev Str := List Char

/-- `[0-9]`, the digit class used by every numeric pattern in the source
(JS `\d` and `[0-9]` both match exactly the ASCII digits). -/
def isDigit (c : Char) : Bool :=
  '0' ≤ c && c ≤ '9'

/-- The JavaScript `\s` class (also the class trimmed by `String.trim`):
ASCII whitespace, NBSP, Ogham space, the Unicode space separators,
line/paragraph separators, narrow NBSP, medium mathematical space,
ideographic space and the BOM. -/
def jsWs (c : Char) : Bool :=
  c = ' ' || c = '\t' || c = '\n' || c = '\r' || c = '\x0b' || c = '\x0c' ||
  c = ' ' || c = ' ' ||
  (' ' ≤ c && c ≤ ' ') ||
  c = ' ' || c = ' ' || c = ' ' || c = ' ' ||
  c = '　' || c = '﻿'

/-- The JavaScript `.` class (without the `s` flag): any character except the
four line terminators. -/
def jsDot (c : Char) : Bool :=
  !(c = '\n' || c = '\r' || c = ' ' || c = ' ')

/-- JavaScript `String.prototype.toLowerCase`, restricted to the simple
one-to-one mappings relevant to this code base: ASCII `A`–`Z` and the
Latin-1 uppercase letters (`À`–`Þ` except `×`) map down by 32. -/
def jsToLower (c : Char) : Char :=
  if 'A' ≤ c && c ≤ 'Z' then Char.ofNat (c.toNat + 32)
  else if 'À' ≤ c && c ≤ 'Þ' && c ≠ '×' then Char.ofNat (c.toNat + 32)
  else c

/-- JavaScript `String.prototype.trim`: drop `\s`-class characters from both
ends. -/
def jsTrim (s : Str) : Str :=
  ((s.dropWhile jsWs).reverse.dropWhile jsWs).reverse

/-- JavaScript `str.replace(a, b)` with single-character string arguments:
replace the first occurrence only. -/
def replaceFirst (a b : Char) : Str → Str
  | [] => []
  | c :: t => if c = a then b :: t else c :: replaceFirst a b t

/-- JavaScript `String.prototype.includes`: contiguous-substring test. -/
def strContains (hay needle : Str) : Bool :=
  match hay with
  | [] => needle.isEmpty
  | _ :: t => needle.isPrefixOf hay || strContains t needle

/-- Case-insensitive containment of an (already lowercase) needle, as
performed by `/.../i.test(line)` for a literal keyword. -/
def containsCI (hay needle : Str) : Bool :=
  strContains (hay.map jsToLower) needle

/-- Strip a case-insensitive literal keyword prefix; returns the rest of the
string on success.  The keyword is given in lowercase. -/
def stripPrefixCI (kw s : Str) : Option Str :=
  match kw, s with
  | [], s => some s
  | _ :: _, [] => none
  | k :: kt, c :: ct => if jsToLower c = k then stripPrefixCI kt ct else none

/-- Return the value of `f` on the first element of the list where it is
`some`; the backtracking-priority iterator used by all matchers. -/
def firstSome {α β : Type} (f : α → Option β) : List α → Option β
  | [] => none
  | a :: as =>
    match f a with
    | some b => some b
    | none => firstSome f as

/-- Run a position matcher at every suffix, leftmost first — the search
performed by an unanchored `String.prototype.match`. -/
def scanStr {β : Type} (f : Str → Option β) : Str → Option β
  | [] => f []
  | c :: t =>
    match f (c :: t) with
    | some b => some b
    | none => scanStr f t

/-- `[n, n-1, …, 0]`: greedy-priority repetition counts. -/
def countdown : Nat → List Nat
  | 0 => [0]
  | n + 1 => (n + 1) :: countdown n

/-- `[n, n-1, …, 1]`: greedy-priority counts for a `+`-style repetition. -/
def countdown1 : Nat → List Nat
  | 0 => []
  | n + 1 => (n + 1) :: countdown1 n

/-- Numeric value of a digit string (digits are ASCII). -/
def strToNat (s : Str) : Nat :=
  s.foldl (fun a c => a * 10 + (c.toNat - 48)) 0

/-- The ASCII digit with value `n` (for `n < 10`). -/
def digitChar (n : Nat) : Char :=
  Char.ofNat (48 + n)

/-- Fuelled decimal printer (structural recursion so that proofs can
evaluate it). -/
def natToStrAux : Nat → Nat → Str
  | 0, _ => []
  | f + 1, n =>
    if n < 10 then [digitChar n]
    else natToStrAux f (n / 10) ++ [digitChar (n % 10)]

/-- The decimal-digit characters of `n`, most significant first. -/
def natToStr (n : Nat) : Str :=
  natToStrAux (n + 1) n

/-- JavaScript `String.prototype.padStart(k, c)`. -/
def padStart (k : Nat) (c : Char) (s : Str) : Str :=
  List.replicate (k - s.length) c ++ s

/-- A JavaScript number as observed by this code: `NaN`, `±Infinity`, or an
exact rational (decimal strings are parsed exactly; see the header). -/
inductive JsNum : Type
  | nan : JsNum
  | inf : JsNum
  | ninf : JsNum
  | num : ℚ → JsNum

deriving DecidableEq

/-- The guard `!isNaN(x) && x > 0` used by the total and item extractors
(`NaN > 0` is false, so this is just `x > 0`). -/
def JsNum.gtZero : JsNum → Bool
  | .nan => false
  | .inf => true
  | .ninf => false
  | .num q => 0 < q

/-- `x < 0`: the result is a negative number. -/
def JsNum.isNeg : JsNum → Bool
  | .nan => false
  | .inf => false
  | .ninf => true
  | .num q => q < 0

/-- Body of `parseFloat` after whitespace and sign: longest prefix that is a
`StrUnsignedDecimalLiteral` (`Infinity`, or digits with optional fraction and
optional exponent); `NaN` when there is none. -/
def parseFloatUnsigned (s : Str) (neg : Bool) : JsNum :=
  if ("Infinity".toList).isPrefixOf s then
    if neg then JsNum.ninf else JsNum.inf
  else
    let ip := s.takeWhile isDigit
    let r := s.dropWhile isDigit
    let fp : Str :=
      match r with
      | '.' :: u => u.takeWhile isDigit
      | _ => []
    let r₂ : Str :=
      match r with
      | '.' :: u => u.dropWhile isDigit
      | _ => r
    if ip.isEmpty && fp.isEmpty then JsNum.nan
    else
      -- mantissa `ip.fp` over `10 ^ |fp|`, then the optional exponent part,
      -- assembled as a numerator/denominator pair (the value is exact)
      let mant : Nat := strToNat (ip ++ fp)
      let nd : ℤ × ℕ :=
        match r₂ with
        | 'e' :: u => expAdjust mant fp.length u
        | 'E' :: u => expAdjust mant fp.length u
        | _ => ((mant : ℤ), 10 ^ fp.length)
      JsNum.num (Rat.divInt (if neg then -nd.1 else nd.1) (nd.2 : ℤ))
where
  /-- Apply an `ExponentPart` if one follows; an `e` not followed by signed
  digits is not part of the longest valid prefix and is ignored. -/
  expAdjust (mant k : Nat) (u : Str) : ℤ × ℕ :=
    let signed : Bool × Str :=
      match u with
      | '-' :: v => (true, v)
      | '+' :: v => (false, v)
      | v => (false, v)
    let ed := signed.2.takeWhile isDigit
    if ed.isEmpty then ((mant : ℤ), 10 ^ k)
    else if signed.1 then ((mant : ℤ), 10 ^ (k + strToNat ed))
    else ((mant * 10 ^ strToNat ed : ℕ), 10 ^ k)

/-- JavaScript `parseFloat`: skip leading whitespace, optional sign, then the
longest valid decimal-literal prefix; `NaN` if none. -/
def jsParseFloat (s : Str) : JsNum :=
  match s.dropWhile jsWs with
  | '+' :: u => parseFloatUnsigned u false
  | '-' :: u => parseFloatUnsigned u true
  | u => parseFloatUnsigned u false

/-! ## Numeric-token matchers

The token `[0-9]+[,.]?[0-9]*` appears in every amount pattern.  When nothing
of the pattern follows it, the greedy match is unambiguous
(`numTokGreedy`); when the pattern continues, all candidate matches are
enumerated in the regex engine's backtracking priority order
(`numTokCandidates`): longest leading digit run first, separator taken
before skipped, longest trailing digit run first. -/

/-- Greedy match of `[0-9]+[,.]?[0-9]*` at the start of `s` (used where the
token is the last element of its pattern).  Returns capture and rest. -/
def numTokGreedy (s : Str) : Option (Str × Str) :=
  match s with
  | [] => none
  | c :: t =>
    if isDigit c then
      let d1 := c :: t.takeWhile isDigit
      let r := t.dropWhile isDigit
      match r with
      | p :: t₂ =>
        if p = ',' || p = '.' then
          some (d1 ++ p :: t₂.takeWhile isDigit, t₂.dropWhile isDigit)
        else some (d1, r)
      | [] => some (d1, [])
    else none

/-- All matches of `[0-9]+[,.]?[0-9]*` at the start of `s`, as
(capture, rest) pairs in backtracking priority order. -/
def numTokCandidates (s : Str) : List (Str × Str) :=
  match s with
  | [] => []
  | c :: t =>
    if isDigit c then
      let n₁ := ((c :: t).takeWhile isDigit).length
      (countdown1 n₁).flatMap (fun a =>
        let d1 := (c :: t).take a
        let r := (c :: t).drop a
        match r with
        | p :: t₂ =>
          if p = ',' || p = '.' then
            ((countdown (t₂.takeWhile isDigit).length).map
              (fun b => (d1 ++ p :: t₂.take b, t₂.drop b))) ++ [(d1, r)]
          else
            (countdown (r.takeWhile isDigit).length).map
              (fun b => (d1 ++ r.take b, r.drop b))
        | [] => [(d1, ([] : Str))])
    else []

/-! ## Date patterns (`extractDate`)

```
/(\d{1,2})[\/\-](\d{1,2})[\/\-](\d{2,4})/   DD/MM/YYYY or DD-MM-YYYY
/(\d{1,2})\.(\d{1,2})\.(\d{2,4})/           DD.MM.YYYY
/(\d{2,4})[\/\-](\d{1,2})[\/\-](\d{1,2})/   YYYY/MM/DD
```
-/

/-- Match exactly `n` digit characters; capture and rest. -/
def exactDigits (n : Nat) (s : Str) : Option (Str × Str) :=
  let pre := s.take n
  if pre.length = n && pre.all isDigit then some (pre, s.drop n) else none

/-- Consume one character of the class `p`. -/
def charClass (p : Char → Bool) (s : Str) : Option Str :=
  match s with
  | c :: t => if p c then some t else none
  | [] => none

/-- `(\d{1,2}) sep (\d{1,2}) sep (\d{2,4})` at the start of `s`, with the
greedy backtracking priority of each counted repetition. -/
def matchDMYAt (sep : Char → Bool) (s : Str) : Option (Str × Str × Str) :=
  firstSome (fun n₁ =>
    (exactDigits n₁ s).bind fun d =>
    (charClass sep d.2).bind fun s₂ =>
    firstSome (fun n₂ =>
      (exactDigits n₂ s₂).bind fun m =>
      (charClass sep m.2).bind fun s₄ =>
      firstSome (fun n₃ =>
        (exactDigits n₃ s₄).map fun y => (d.1, m.1, y.1)) [4, 3, 2]) [2, 1]) [2, 1]

/-- `(\d{2,4}) sep (\d{1,2}) sep (\d{1,2})` at the start of `s` (the
year-first pattern); captures are returned in capture-group order. -/
def matchYMDAt (sep : Char → Bool) (s : Str) : Option (Str × Str × Str) :=
  firstSome (fun n₁ =>
    (exactDigits n₁ s).bind fun y =>
    (charClass sep y.2).bind fun s₂ =>
    firstSome (fun n₂ =>
      (exactDigits n₂ s₂).bind fun m =>
      (charClass sep m.2).bind fun s₄ =>
      firstSome (fun n₃ =>
        (exactDigits n₃ s₄).map fun d => (y.1, m.1, d.1)) [2, 1]) [2, 1]) [4, 3, 2]

/-- `[\/\-]`. -/
def slashDash (c : Char) : Bool :=
  c = '/' || c = '-'

/-- The three date patterns of `extractDate`, in source order, each searched
leftmost-first over the line by `String.prototype.match`. -/
def datePatterns : List (Str → Option (Str × Str × Str)) :=
  [scanStr (matchDMYAt slashDash),
   scanStr (matchDMYAt (fun c => c = '.')),
   scanStr (matchYMDAt slashDash)]

/-- Proleptic-Gregorian leap year. -/
def isLeapYear (y : Nat) : Bool :=
  (y % 4 = 0 && y % 100 ≠ 0) || y % 400 = 0

/-- Days in month `m` of year `y` (months `1`–`12`). -/
def daysInMonth (y m : Nat) : Nat :=
  match m with
  | 1 => 31 | 2 => if isLeapYear y then 29 else 28 | 3 => 31
  | 4 => 30 | 5 => 31 | 6 => 30 | 7 => 31 | 8 => 31
  | 9 => 30 | 10 => 31 | 11 => 30 | 12 => 31
  | _ => 0

/-- Model of
``new Date(`${fullYear}-${month.padStart(2,'0')}-${day.padStart(2,'0')}`)``
followed by the `isNaN(date.getTime())` test, for the capture strings this
code feeds it: the constructed string is accepted exactly when the year part
has four digits (V8's date-string fast path requires a four-digit year for
this dash-separated form, and out-of-range components make it Invalid Date)
and year-month-day is a real proleptic-Gregorian calendar date.  Accepted
strings are parsed as UTC midnight, so the later `toISOString()` reproduces
the same three fields, returned here. -/
def jsDateCheck (yearS monS dayS : Str) : Option (Nat × Nat × Nat) :=
  if yearS.length = 4 && yearS.all isDigit && monS.all isDigit && dayS.all isDigit then
    if 1 ≤ strToNat monS && strToNat monS ≤ 12 && 1 ≤ strToNat dayS &&
        strToNat dayS ≤ daysInMonth (strToNat yearS) (strToNat monS) then
      some (strToNat yearS, strToNat monS, strToNat dayS)
    else none
  else none

/-- `date.toISOString().split('T')[0]`: the zero-padded `YYYY-MM-DD` form. -/
def formatYMD (y m d : Nat) : Str :=
  padStart 4 '0' (natToStr y) ++ '-' :: (padStart 2 '0' (natToStr m) ++ '-' :: padStart 2 '0' (natToStr d))

/-- `` `20${year}` `` expansion of a two-digit year capture. -/
def fullYearOf (y : Str) : Str :=
  if y.length = 2 then '2' :: '0' :: y else y

/-- One `line.match(pattern)` attempt of `extractDate`: the source
destructures the match positionally as `[, day, month, year]` whichever
pattern produced it, expands a 2-digit year with `20`, and returns the ISO
form if the date is valid. -/
def tryDatePattern (p : Str → Option (Str × Str × Str)) (line : Str) : Option Str :=
  (p line).bind fun cap =>
    match jsDateCheck (fullYearOf cap.2.2) cap.2.1 cap.1 with
    | some ymd => some (formatYMD ymd.1 ymd.2.1 ymd.2.2)
    | none => none

/-- `VisionService.extractDate`.  `today` is the current date at parse time,
used by the `new Date().toISOString()` fallback. -/
def extractDate (lines : List Str) (today : Nat × Nat × Nat) : Str :=
  match firstSome (fun line => firstSome (fun p => tryDatePattern p line) datePatterns) lines with
  | some s => s
  | none => formatYMD today.1 today.2.1 today.2.2

/-! ## Vendor extraction (`extractVendor`) -/

/-- `/^[A-Z\s&]+$/`: a non-empty line of capitals, whitespace and `&`. -/
def isAllCapsLine (l : Str) : Bool :=
  !l.isEmpty && l.all (fun c => ('A' ≤ c && c ≤ 'Z') || jsWs c || c = '&')

/-- The company-suffix tests `/S\.?L\.?/i`, `/S\.?A\.?/i`, `/LTDA/i`:
each holds iff the letter pair (with optional period between) occurs
anywhere, case-insensitively; the trailing `\.?` constrains nothing. -/
def vendorSuffixTests (l : Str) : Bool :=
  containsCI l ("sl".toList) || containsCI l ("s.l".toList) ||
  containsCI l ("sa".toList) || containsCI l ("s.a".toList) ||
  containsCI l ("ltda".toList)

/-- A line passes some vendor pattern (patterns tested in source order;
whichever fires, the line itself is returned). -/
def vendorLineTest (l : Str) : Bool :=
  isAllCapsLine l || vendorSuffixTests l

/-- `line.length > 3 && line.length < 50`. -/
def substantialLen (l : Str) : Bool :=
  decide (3 < l.length) && decide (l.length < 50)

/-- `VisionService.extractVendor`: scan the first 5 lines for a
pattern-matching line of reasonable length; otherwise the first substantial
line anywhere; otherwise the fixed placeholder. -/
def extractVendor (lines : List Str) : Str :=
  match (lines.take 5).find? (fun l => substantialLen l && vendorLineTest l) with
  | some l => l
  | none =>
    match lines.find? substantialLen with
    | some l => l
    | none => "Comercio desconocido".toList

/-! ## Total extraction (`extractTotal`)

```
/TOTAL[:\s]*([0-9]+[,.]?[0-9]*)/i
/SUMA[:\s]*([0-9]+[,.]?[0-9]*)/i
/IMPORTE[:\s]*([0-9]+[,.]?[0-9]*)/i
/([0-9]+[,.]?[0-9]*)\s*€/
/€\s*([0-9]+[,.]?[0-9]*)/
/([0-9]+[,.]?[0-9]*)\s*EUR/i
```
-/

/-- `KW[:\s]*([0-9]+[,.]?[0-9]*)` at the start of `s` (keyword given in
lowercase; `[:\s]*` is disjoint from `[0-9]`, so its greedy match is
maximal). -/
def kwNumAt (kw : Str) (s : Str) : Option Str :=
  (stripPrefixCI kw s).bind fun r =>
    (numTokGreedy (r.dropWhile (fun c => c = ':' || jsWs c))).map (fun x => x.1)

/-- Numeric token whose continuation is checked by `tailOk`, candidates in
backtracking order; returns the capture. -/
def numThenTail (tailOk : Str → Bool) (s : Str) : Option Str :=
  firstSome (fun cr => if tailOk cr.2 then some cr.1 else none) (numTokCandidates s)

/-- Continuation `\s*€`. -/
def euroAfter (rest : Str) : Bool :=
  match rest.dropWhile jsWs with
  | '€' :: _ => true
  | _ => false

/-- Continuation `\s*EUR` (case-insensitive). -/
def eurAfter (rest : Str) : Bool :=
  (stripPrefixCI ("eur".toList) (rest.dropWhile jsWs)).isSome

/-- `€\s*([0-9]+[,.]?[0-9]*)` at the start of `s`. -/
def euroThenNumAt (s : Str) : Option Str :=
  match s with
  | c :: t =>
    if c = '€' then (numTokGreedy (t.dropWhile jsWs)).map (fun x => x.1) else none
  | [] => none

/-- The six total patterns in source order, each searched leftmost-first. -/
def totalPatterns : List (Str → Option Str) :=
  [scanStr (kwNumAt ("total".toList)),
   scanStr (kwNumAt ("suma".toList)),
   scanStr (kwNumAt ("importe".toList)),
   scanStr (numThenTail euroAfter),
   scanStr euroThenNumAt,
   scanStr (numThenTail eurAfter)]

/-- `parseFloat(match[1].replace(',', '.'))`. -/
def parsedAmount (cap : Str) : JsNum :=
  jsParseFloat (replaceFirst ',' '.' cap)

/-- One line of `extractTotal`'s pattern scan: the first pattern whose
captured amount passes `!isNaN(total) && total > 0`. -/
def totalCandidate (line : Str) : Option JsNum :=
  firstSome (fun pat =>
    (pat line).bind fun cap =>
      let amt := parsedAmount cap
      if amt.gtZero then some amt else none) totalPatterns

/-- Fuelled scan for all matches of `/([0-9]+[,.]?[0-9]*)/g` (structural
recursion; the fuel is the string length, which suffices because every step
consumes at least one character). -/
def allNumToksAux : Nat → Str → List Str
  | 0, _ => []
  | _, [] => []
  | f + 1, c :: t =>
    if isDigit c then
      let d1 := c :: t.takeWhile isDigit
      let r := t.dropWhile isDigit
      match r with
      | p :: t₂ =>
        if p = ',' || p = '.' then
          (d1 ++ p :: t₂.takeWhile isDigit) :: allNumToksAux f (t₂.dropWhile isDigit)
        else d1 :: allNumToksAux f (p :: t₂)
      | [] => [d1]
    else allNumToksAux f t

/-- `line.match(/([0-9]+[,.]?[0-9]*)/g)`: all numeric substrings, in order. -/
def allNumToks (s : Str) : List Str :=
  allNumToksAux s.length s

/-- One line of `extractTotal`'s fallback scan: numeric substrings tried
rightmost-first, first one `> 0` wins. -/
def fallbackCandidate (line : Str) : Option JsNum :=
  firstSome (fun tok =>
    let v := parsedAmount tok
    if v.gtZero then some v else none) (allNumToks line).reverse

/-- `VisionService.extractTotal`: reverse pattern scan, then reverse
fallback scan, then `0`. -/
def extractTotal (lines : List Str) : JsNum :=
  match firstSome totalCandidate lines.reverse with
  | some v => v
  | none =>
    match firstSome fallbackCandidate lines.reverse with
    | some v => v
    | none => JsNum.num 0

/-! ## Item extraction (`extractItems`)

```
/(.+?)\s+([0-9]+[,.]?[0-9]*)\s*€?$/    name + trailing price
/(.+?)\s+([0-9]+[,.]?[0-9]*)\s*EUR$/i  name + trailing price in EUR
/([0-9]+[,.]?[0-9]*)\s*€?\s+(.+)$/     price + trailing name
```

The source then decides capture order with
`pattern.source.includes('(.+?).*([0-9]')` — a literal substring test that
is false for every one of the three sources (they all contain
`(.+?)\s+([0-9]` or start with `([0-9]`), embedded faithfully below. -/

/-- Tail `\s*€?$`: optional whitespace, optional `€`, end of string
(`\s` and `€` are disjoint, so the greedy `\s*` is maximal). -/
def euroEnd (rest : Str) : Bool :=
  match rest.dropWhile jsWs with
  | [] => true
  | ['€'] => true
  | _ => false

/-- Tail `\s*EUR$` (case-insensitive). -/
def eurEnd (rest : Str) : Bool :=
  (rest.dropWhile jsWs).map jsToLower = "eur".toList

/-- Rest of the name-first patterns after the name capture:
`\s+ ([0-9]+[,.]?[0-9]*) tail`.  The `\s+` is maximal (digits are not
whitespace); the numeric token backtracks against the tail. -/
def restNameNum (tailOk : Str → Bool) (s : Str) : Option Str :=
  match s with
  | c :: t =>
    if jsWs c then
      firstSome (fun cr => if tailOk cr.2 then some cr.1 else none)
        (numTokCandidates (t.dropWhile jsWs))
    else none
  | [] => none

/-- Lazy `(.+?)` loop at one start position: grow the name one
`.`-matchable character at a time, trying the rest of the pattern after
each extension (shortest name wins). -/
def nameNumLazy (tailOk : Str → Bool) (name : Str) (s : Str) : Option (Str × Str) :=
  match s with
  | [] => none
  | c :: t =>
    if jsDot c then
      let n := name ++ [c]
      match restNameNum tailOk t with
      | some cap => some (n, cap)
      | none => nameNumLazy tailOk n t
    else none

/-- `(.+?)\s+([0-9]+[,.]?[0-9]*) tail` searched leftmost-first.  Captures
are returned in group order: (text, number). -/
def matchNameNum (tailOk : Str → Bool) : Str → Option (Str × Str) :=
  scanStr (nameNumLazy tailOk [])

/-- `\s+(.+)$` with the greedy priorities of both repetitions: `\s+` takes
`k` characters, longest first, and `(.+)` must cover the entire rest (its
characters must be `.`-matchable and reach the end anchor). -/
def wsPlusDotEnd (u : Str) : Option Str :=
  firstSome (fun k =>
    if 1 ≤ k then
      let rem := u.drop k
      if !rem.isEmpty && rem.all jsDot then some rem else none
    else none) (countdown ((u.takeWhile jsWs).length))

/-- Tail of the price-first pattern after the numeric capture:
`\s*€?\s+(.+)$` with full backtracking over `\s*` (longest first) and `€?`
(present first).  Returns the name capture. -/
def tailPriceName (rest : Str) : Option Str :=
  firstSome (fun i =>
    let u := rest.drop i
    match u with
    | '€' :: v =>
      match wsPlusDotEnd v with
      | some r => some r
      | none => wsPlusDotEnd u
    | _ => wsPlusDotEnd u) (countdown ((rest.takeWhile jsWs).length))

/-- `([0-9]+[,.]?[0-9]*)\s*€?\s+(.+)$` searched leftmost-first.  Captures
in group order: (number, text). -/
def matchPriceName : Str → Option (Str × Str) :=
  scanStr (fun s =>
    firstSome (fun cr => (tailPriceName cr.2).map (fun name => (cr.1, name)))
      (numTokCandidates s))

/-- `VisionService.isHeaderOrFooter`: the skip patterns, in source order. -/
def isHeaderOrFooter (l : Str) : Bool :=
  containsCI l ("total".toList) || containsCI l ("suma".toList) ||
  containsCI l ("iva".toList) || containsCI l ("fecha".toList) ||
  containsCI l ("date".toList) || containsCI l ("gracias".toList) ||
  containsCI l ("thank".toList) ||
  containsCI l ("telefono".toList) || containsCI l ("teléfono".toList) ||
  containsCI l ("phone".toList) || containsCI l ("dirección".toList) ||
  containsCI l ("address".toList) || containsCI l ("www.".toList) ||
  l.contains '@' ||
  containsCI l ("número".toList) || containsCI l ("numero".toList) ||
  containsCI l ("ticket".toList) || containsCI l ("factura".toList) ||
  containsCI l ("invoice".toList)

/-- A line item: `{ name, price, quantity }`. -/
structure LineItem : Type where
  name : Str
  price : JsNum
  quantity : Nat

deriving DecidableEq

/-- The `pattern.source` strings of the three item patterns, as JavaScript
sees them. -/
def itemPatternSources : List Str :=
  ["(.+?)\\s+([0-9]+[,.]?[0-9]*)\\s*€?$".toList,
   "(.+?)\\s+([0-9]+[,.]?[0-9]*)\\s*EUR$".toList,
   "([0-9]+[,.]?[0-9]*)\\s*€?\\s+(.+)$".toList]

/-- The needle of the capture-order check:
`pattern.source.includes('(.+?).*([0-9]')`. -/
def orderCheckNeedle : Str :=
  "(.+?).*([0-9]".toList

/-- The three item patterns with their sources, in source order. -/
def itemPatterns : List (Str × (Str → Option (Str × Str))) :=
  [(itemPatternSources[0]!, matchNameNum euroEnd),
   (itemPatternSources[1]!, matchNameNum eurEnd),
   (itemPatternSources[2]!, matchPriceName)]

/-- Per-match item construction: the capture-order check, the
`parseFloat(price.replace(',', '.'))` normalization, and the
`!isNaN(itemPrice) && itemPrice > 0 && name.trim().length > 1` guard. -/
def itemFromMatch (src : Str) (m : Str × Str) : Option LineItem :=
  let nameprice : Str × Str :=
    if strContains src orderCheckNeedle then (m.1, m.2) else (m.2, m.1)
  let itemPrice := jsParseFloat (replaceFirst ',' '.' nameprice.2)
  if itemPrice.gtZero && decide (1 < (jsTrim nameprice.1).length) then
    some ⟨jsTrim nameprice.1, itemPrice, 1⟩
  else none

/-- Items contributed by one line: each of the three patterns is tried and
may push one item (no deduplication, no early exit). -/
def lineItems (l : Str) : List LineItem :=
  itemPatterns.filterMap (fun p => (p.2 l).bind (itemFromMatch p.1))

/-- `VisionService.extractItems`: skip header/footer lines, collect the
per-pattern items in order, truncate to 20. -/
def extractItems (lines : List Str) : List LineItem :=
  ((lines.filter (fun l => !isHeaderOrFooter l)).flatMap lineItems).take 20

/-! ## Classification (`categorizeExpense`) -/

/-- The category table, in the object-literal declaration order the source
iterates with `Object.entries`. -/
def categories : List (Str × List Str) :=
  [("Alimentación".toList,
    ["supermercado".toList, "mercado".toList, "carrefour".toList, "mercadona".toList,
     "lidl".toList, "aldi".toList, "dia".toList, "eroski".toList, "alcampo".toList,
     "hipercor".toList, "el corte inglés".toList, "panadería".toList,
     "charcutería".toList, "frutería".toList]),
   ("Transporte".toList,
    ["gasolinera".toList, "shell".toList, "repsol".toList, "cepsa".toList, "bp".toList,
     "galp".toList, "taxi".toList, "uber".toList, "cabify".toList, "metro".toList,
     "bus".toList, "tren".toList, "parking".toList, "aparcamiento".toList]),
   ("Restaurantes".toList,
    ["restaurante".toList, "bar".toList, "café".toList, "cafetería".toList,
     "pizzería".toList, "hamburguesa".toList, "mcdonald".toList, "burger".toList,
     "kfc".toList, "telepizza".toList, "dominos".toList]),
   ("Farmacia".toList,
    ["farmacia".toList, "parafarmacia".toList, "medicina".toList, "medicamento".toList]),
   ("Ropa".toList,
    ["zara".toList, "h&m".toList, "mango".toList, "primark".toList, "decathlon".toList,
     "nike".toList, "adidas".toList, "el corte inglés".toList, "moda".toList]),
   ("Hogar".toList,
    ["ikea".toList, "leroy merlin".toList, "bricomart".toList, "aki".toList,
     "ferretería".toList, "electrodomésticos".toList, "mediamarkt".toList,
     "carrefour".toList]),
   ("Entretenimiento".toList,
    ["cine".toList, "teatro".toList, "concierto".toList, "spotify".toList,
     "netflix".toList, "amazon prime".toList, "juego".toList]),
   ("Servicios".toList,
    ["electricidad".toList, "agua".toList, "gas".toList, "telefono".toList,
     "internet".toList, "seguro".toList, "banco".toList])]

/-- `lines.join(' ').toLowerCase()`. -/
def fullTextOf (lines : List Str) : Str :=
  (List.intercalate (" ".toList) lines).map jsToLower

/-- `VisionService.categorizeExpense`: first category in table order with a
keyword occurring in the lowercased joined text; `Otros` otherwise. -/
def categorizeExpense (lines : List Str) : Str :=
  match categories.find? (fun p => p.2.any (fun k => strContains (fullTextOf lines) k)) with
  | some p => p.1
  | none => "Otros".toList

/-! ## Normalizer and assembler (`parseReceiptData`) -/

/-- `fullText.split('\n').map(l => l.trim()).filter(l => l.length > 0)`. -/
def normalizeLines (fullText : Str) : List Str :=
  ((fullText.splitOn '\n').map jsTrim).filter (fun l => 0 < l.length)

/-- The structured receipt record. -/
structure ParsedReceipt : Type where
  vendor : Str
  date : Str
  total : JsNum
  items : List LineItem
  category : Str
  confidence : ℚ
  rawText : Str

deriving DecidableEq

/-- `VisionService.parseReceiptData` (`today` is the current date used by
the date fallback; `0.85` is the exact value of the literal). -/
def parseReceiptData (fullText : Str) (today : Nat × Nat × Nat) : ParsedReceipt :=
  let lines := normalizeLines fullText
  { vendor := extractVendor lines
    date := extractDate lines today
    total := extractTotal lines
    items := extractItems lines
    category := categorizeExpense lines
    confidence := Rat.divInt 85 100
    rawText := fullText }

/-! ## Lemmas: matchers find nothing in digit-free text -/

/-- No character of `s` is a digit. -/
def NoDig (s : Str) : Prop :=
  ∀ c ∈ s, isDigit c = false

instance (s : Str) : Decidable (NoDig s) := by
  unfold NoDig
  infer_instance

/-! ## Classifier claims (C8, C9) -/

/-- The closed set of 9 labels: the 8 table categories plus the default. -/
def categoryLabels : List Str :=
  ["Alimentación".toList, "Transporte".toList, "Restaurantes".toList,
   "Farmacia".toList, "Ropa".toList, "Hogar".toList,
   "Entretenimiento".toList, "Servicios".toList, "Otros".toList]

/-! ## Concrete-scenario claims (C1, C2, C3, C10) -/

/-- The round-trip scenario's full OCR text. -/
def c1FullText : Str :=
  "MERCADONA S.A.\n15/01/2024\nPan integral 2.50€\nLeche entera 1.80€\nTOTAL: 4.30€".toList

/-! ## C6: the date extractor always returns a valid `YYYY-MM-DD` string -/

/-- A real proleptic-Gregorian date whose year fits in four digits. -/
def validYMD (y m d : Nat) : Prop :=
  y ≤ 9999 ∧ 1 ≤ m ∧ m ≤ 12 ∧ 1 ≤ d ∧ d ≤ daysInMonth y m

instance (y m d : Nat) : Decidable (validYMD y m d) := by
  unfold validYMD
  infer_instance

/-- Syntactically valid `YYYY-MM-DD` calendar-date string: ten characters,
four digits, dash, two digits, dash, two digits, whose month and day values
denote a real calendar date. -/
def isValidDateStr (s : Str) : Bool :=
  decide (s.length = 10) &&
  (s.take 4).all isDigit &&
  decide (s.get? 4 = some '-') &&
  decide (s.get? 7 = some '-') &&
  ((s.drop 5).take 2).all isDigit &&
  ((s.drop 8).take 2).all isDigit &&
  decide (1 ≤ strToNat ((s.drop 5).take 2)) &&
  decide (strToNat ((s.drop 5).take 2) ≤ 12) &&
  decide (1 ≤ strToNat ((s.drop 8).take 2)) &&
  decide (strToNat ((s.drop 8).take 2) ≤
    daysInMonth (strToNat (s.take 4)) (strToNat ((s.drop 5).take 2)))

/-! ## Verification -/

example : extractTotal [("9.99€".toList)] = JsNum.num (Rat.divInt 999 100) := by decide
example : extractTotal [("€ 5".toList)] = JsNum.num 5 := by decide
example : extractTotal [("5 EUR".toList)] = JsNum.num 5 := by decide
example : extractTotal [("x 1 2".toList), ("3 y".toList)] = JsNum.num 3 := by decide
example : extractItems [("€5 pan".toList)] = [⟨"pan".toList, JsNum.num 5, 1⟩] := by decide
example : matchPriceName ("12 34".toList) = some ("12".toList, "34".toList) := by decide

example : jsParseFloat ("2.50".toList) = JsNum.num (Rat.divInt 250 100) := by decide

example : jsParseFloat ("Pan integral".toList) = JsNum.nan := by decide

example : jsParseFloat ("Infinity".toList) = JsNum.inf := by decide

example : jsParseFloat ("4.30".toList) = JsNum.num (Rat.divInt 43 10) := by decide

example : jsParseFloat (" .5e1".toList) = JsNum.num 5 := by decide

example : jsParseFloat ("12e".toList) = JsNum.num 12 := by decide

example : jsParseFloat ("-3".toList) = JsNum.num (-3) := by decide

example : strToNat ("2024".toList) = 2024 := by decide

example : scanStr (kwNumAt ("total".toList)) ("TOTAL: 4.30€".toList) = some ("4.30".toList) := by decide

example : extractTotal [("Producto 1: 2.50€".toList), ("Producto 2: 3.80€".toList), ("TOTAL: 6.30€".toList)] = JsNum.num (Rat.divInt 63 10) := by decide

example : extractTotal [("abc".toList)] = JsNum.num 0 := by decide

example : extractTotal [("precio 12 34".toList)] = JsNum.num 34 := by decide

example : extractDate [("MERCADONA".toList), ("15/01/2024".toList), ("TICKET: 123".toList)] (2026, 10, 11) = "2024-01-15".toList := by decide

example : extractDate [("2024-01-15".toList)] (2026, 10, 11) = "2015-01-24".toList := by decide

example : extractDate [("sin fecha".toList)] (2026, 10, 11) = "2026-10-11".toList := by decide

example : extractDate [("31/02/2024".toList)] (2026, 10, 11) = "2026-10-11".toList := by decide

example : extractVendor [("MERCADONA S.A.".toList), ("C/ EJEMPLO 123".toList), ("28001 MADRID".toList)] = "MERCADONA S.A.".toList := by decide

example : extractVendor [] = "Comercio desconocido".toList := by decide

example : extractVendor [("ab".toList), ("tienda de barrio".toList)] = "tienda de barrio".toList := by decide

example : natToStr 2024 = "2024".toList := by decide

example : strContains (itemPatternSources[0]!) orderCheckNeedle = false := by decide

example : matchNameNum euroEnd ("Pan integral 2.50€".toList) =
    some ("Pan integral".toList, "2.50".toList) := by decide

example : extractItems [("Pan integral 2.50€".toList), ("Leche entera 1.80€".toList), ("TOTAL: 4.30€".toList)] = [] := by decide

example : extractItems [("Infinity 55€".toList)] = [⟨"55".toList, JsNum.inf, 1⟩] := by decide

example : extractItems [("12 34".toList)] =
    [⟨"34".toList, JsNum.num 12, 1⟩, ⟨"34".toList, JsNum.num 12, 1⟩] := by decide

example : matchPriceName ("5 €abc".toList) = some ("5".toList, "€abc".toList) := by decide

example : isHeaderOrFooter ("GRACIAS POR SU VISITA".toList) = true := by decide

example : isHeaderOrFooter ("Pan integral".toList) = false := by decide

example : categorizeExpense [("mercadona".toList), ("supermercado".toList)] = "Alimentación".toList := by decide

example : categorizeExpense [("gasolinera shell 60.00€".toList)] = "Transporte".toList := by decide

example : categorizeExpense [] = "Otros".toList := by decide

example : normalizeLines ("a\n \nb".toList) = [("a".toList), ("b".toList)] := by decide

/-! ## General lemmas about the iteration combinators -/

theorem firstSome_eq_some {α β : Type} {f : α → Option β} {l : List α} {b : β}
    (h : firstSome f l = some b) : ∃ a ∈ l, f a = some b := by
  induction l with
  | nil => simp [firstSome] at h
  | cons a as ih =>
    rw [firstSome] at h
    cases hfa : f a with
    | some c =>
      rw [hfa] at h
      exact ⟨a, List.mem_cons_self a as, by rw [hfa]; exact h⟩
    | none =>
      rw [hfa] at h
      obtain ⟨x, hx, hfx⟩ := ih h
      exact ⟨x, List.mem_cons_of_mem a hx, hfx⟩

theorem firstSome_eq_none {α β : Type} {f : α → Option β} {l : List α}
    (h : ∀ a ∈ l, f a = none) : firstSome f l = none := by
  induction l with
  | nil => rfl
  | cons a as ih =>
    rw [firstSome, h a (List.mem_cons_self a as)]
    exact ih fun x hx => h x (List.mem_cons_of_mem a hx)

theorem NoDig.sublist {s t : Str} (h : NoDig s) (hsub : t.Sublist s) : NoDig t :=
  fun c hc => h c (hsub.subset hc)

theorem NoDig.dropWhile {s : Str} (p : Char → Bool) (h : NoDig s) :
    NoDig (s.dropWhile p) :=
  h.sublist (List.dropWhile_sublist p)

theorem NoDig.tail {c : Char} {t : Str} (h : NoDig (c :: t)) : NoDig t :=
  fun x hx => h x (List.mem_cons_of_mem c hx)

theorem scanStr_none {β : Type} {f : Str → Option β}
    (hf : ∀ t, NoDig t → f t = none) : ∀ s, NoDig s → scanStr f s = none := by
  intro s
  induction s with
  | nil => intro h; exact hf [] h
  | cons c t ih =>
    intro h
    rw [scanStr, hf (c :: t) h]
    exact ih h.tail

theorem numTokGreedy_none {s : Str} (h : NoDig s) : numTokGreedy s = none := by
  cases s with
  | nil => rfl
  | cons c t => rw [numTokGreedy]; simp [h c (List.mem_cons_self c t)]

theorem numTokCandidates_nil {s : Str} (h : NoDig s) : numTokCandidates s = [] := by
  cases s with
  | nil => rfl
  | cons c t => rw [numTokCandidates]; simp [h c (List.mem_cons_self c t)]

theorem stripPrefixCI_mem {kw s r : Str} (h : stripPrefixCI kw s = some r) :
    ∀ c ∈ r, c ∈ s := by
  induction kw generalizing s with
  | nil =>
    rw [stripPrefixCI] at h
    cases h
    exact fun c hc => hc
  | cons k kt ih =>
    cases s with
    | nil => simp [stripPrefixCI] at h
    | cons c ct =>
      rw [stripPrefixCI] at h
      split at h
      · exact fun x hx => List.mem_cons_of_mem c (ih h x hx)
      · cases h

theorem NoDig.stripPrefixCI {kw s r : Str} (h : NoDig s)
    (hr : NubemDom.stripPrefixCI kw s = some r) : NoDig r :=
  fun c hc => h c (stripPrefixCI_mem hr c hc)

theorem kwNumAt_none {kw s : Str} (h : NoDig s) : kwNumAt kw s = none := by
  rw [kwNumAt]
  cases hstrip : stripPrefixCI kw s with
  | none => rfl
  | some r =>
    have hr : NoDig r := h.stripPrefixCI hstrip
    simp [numTokGreedy_none (NoDig.dropWhile _ hr)]

theorem numThenTail_none {tailOk : Str → Bool} {s : Str} (h : NoDig s) :
    numThenTail tailOk s = none := by
  rw [numThenTail, numTokCandidates_nil h]
  rfl

theorem euroThenNumAt_none {s : Str} (h : NoDig s) : euroThenNumAt s = none := by
  cases s with
  | nil => rfl
  | cons c t =>
    rw [euroThenNumAt]
    split
    · rw [numTokGreedy_none (NoDig.dropWhile _ h.tail)]
      rfl
    · rfl

theorem totalCandidate_none {line : Str} (h : NoDig line) :
    totalCandidate line = none := by
  rw [totalCandidate]
  apply firstSome_eq_none
  intro pat hpat
  have hnone : pat line = none := by
    simp only [totalPatterns, List.mem_cons, List.not_mem_nil, or_false] at hpat
    rcases hpat with rfl | rfl | rfl | rfl | rfl | rfl
    · exact scanStr_none (fun t ht => kwNumAt_none ht) line h
    · exact scanStr_none (fun t ht => kwNumAt_none ht) line h
    · exact scanStr_none (fun t ht => kwNumAt_none ht) line h
    · exact scanStr_none (fun t ht => numThenTail_none ht) line h
    · exact scanStr_none (fun t ht => euroThenNumAt_none ht) line h
    · exact scanStr_none (fun t ht => numThenTail_none ht) line h
  rw [hnone]
  rfl

theorem allNumToksAux_nil {f : Nat} {s : Str} (h : NoDig s) :
    allNumToksAux f s = [] := by
  induction f generalizing s with
  | zero => cases s <;> rfl
  | succ f ih =>
    cases s with
    | nil => rfl
    | cons c t =>
      rw [allNumToksAux]
      simp only [h c (List.mem_cons_self c t), Bool.false_eq_true, if_false]
      exact ih h.tail

theorem fallbackCandidate_none {line : Str} (h : NoDig line) :
    fallbackCandidate line = none := by
  rw [fallbackCandidate, allNumToks, allNumToksAux_nil h]
  rfl

/-! ## C5 support: every returned total passed the `> 0` guard -/

theorem totalCandidate_gtZero {line : Str} {v : JsNum}
    (h : totalCandidate line = some v) : v.gtZero = true := by
  rw [totalCandidate] at h
  obtain ⟨pat, _, hp⟩ := firstSome_eq_some h
  rw [Option.bind_eq_some] at hp
  obtain ⟨cap, _, hcap⟩ := hp
  dsimp only at hcap
  split at hcap
  · next hgt => cases hcap; exact hgt
  · cases hcap

theorem fallbackCandidate_gtZero {line : Str} {v : JsNum}
    (h : fallbackCandidate line = some v) : v.gtZero = true := by
  rw [fallbackCandidate] at h
  obtain ⟨tok, _, hp⟩ := firstSome_eq_some h
  dsimp only at hp
  split at hp
  · next hgt => cases hp; exact hgt
  · cases hp

theorem gtZero_isNeg_false {v : JsNum} (h : v.gtZero = true) : v.isNeg = false := by
  cases v with
  | nan => rfl
  | inf => rfl
  | ninf => exact absurd h (by decide)
  | num q =>
    simp only [JsNum.gtZero, decide_eq_true_eq] at h
    simp only [JsNum.isNeg, decide_eq_false_iff_not]
    exact lt_asymm h

example : jsTrim ("  ab ".toList) = "ab".toList := by decide

example : strContains ("abcde".toList) ("cd".toList) = true := by decide

example : jsToLower 'É' = 'é' := by decide

/-- C5: for every LineSequence, `extractTotal` never returns a negative
number, and on a sequence with no numeric content (no digit anywhere in any
line) it returns exactly `0`. -/
theorem extractTotal_nonneg_and_zero_on_digit_free (lines : List Str) :
    (extractTotal lines).isNeg = false ∧
    ((∀ l ∈ lines, NoDig l) → extractTotal lines = JsNum.num 0) := by
  constructor
  · rw [extractTotal]
    cases h1 : firstSome totalCandidate lines.reverse with
    | some v =>
      obtain ⟨line, _, hline⟩ := firstSome_eq_some h1
      exact gtZero_isNeg_false (totalCandidate_gtZero hline)
    | none =>
      cases h2 : firstSome fallbackCandidate lines.reverse with
      | some v =>
        obtain ⟨line, _, hline⟩ := firstSome_eq_some h2
        exact gtZero_isNeg_false (fallbackCandidate_gtZero hline)
      | none => rfl
  · intro h
    have hrev : ∀ l ∈ lines.reverse, NoDig l :=
      fun l hl => h l (List.mem_reverse.mp hl)
    rw [extractTotal,
      firstSome_eq_none (fun l hl => totalCandidate_none (hrev l hl)),
      firstSome_eq_none (fun l hl => fallbackCandidate_none (hrev l hl))]

/-- Witness for C5 at the digit-free input `["sin importe"]`. -/
theorem extractTotal_nonneg_and_zero_on_digit_free_witness :
    extractTotal [("sin importe".toList)] = JsNum.num 0 :=
  (extractTotal_nonneg_and_zero_on_digit_free [("sin importe".toList)]).2 (by decide)

/-! ## Trimming lemmas (for C4) -/

theorem dropWhile_dropWhile (p : Char → Bool) (l : Str) :
    (l.dropWhile p).dropWhile p = l.dropWhile p := by
  induction l with
  | nil => rfl
  | cons c t ih =>
    by_cases h : p c
    · simp only [List.dropWhile_cons, h, if_true]
      exact ih
    · simp only [List.dropWhile_cons, h, if_false, Bool.false_eq_true]

theorem dropWhile_prefix_fixed {p : Char → Bool} {x y : Str}
    (hx : x.dropWhile p = x) (hpre : y <+: x) : y.dropWhile p = y := by
  cases y with
  | nil => rfl
  | cons c t =>
    cases x with
    | nil => simp at hpre
    | cons a b =>
      have hc : c = a := by
        obtain ⟨r, hr⟩ := hpre
        exact (List.cons.injEq c (t ++ r) a b).mp hr |>.1
      have hnp : p a = false := by
        by_contra hcon
        rw [Bool.not_eq_false] at hcon
        rw [List.dropWhile_cons, if_pos hcon] at hx
        have hlen := congrArg List.length hx
        have := (List.dropWhile_sublist (l := b) p).length_le
        simp at hlen
        omega
      rw [List.dropWhile_cons, hc, hnp]
      simp

theorem jsTrim_dropWhile_fixed (s : Str) : (jsTrim s).dropWhile jsWs = jsTrim s := by
  have hx : (s.dropWhile jsWs).dropWhile jsWs = s.dropWhile jsWs :=
    dropWhile_dropWhile jsWs s
  have hsuf : (s.dropWhile jsWs).reverse.dropWhile jsWs <:+ (s.dropWhile jsWs).reverse :=
    List.dropWhile_suffix jsWs
  have hpre : jsTrim s <+: s.dropWhile jsWs := by
    rw [jsTrim]
    have := List.reverse_prefix.mpr hsuf
    rwa [List.reverse_reverse] at this
  exact dropWhile_prefix_fixed hx hpre

theorem jsTrim_idem (s : Str) : jsTrim (jsTrim s) = jsTrim s := by
  rw [jsTrim, jsTrim_dropWhile_fixed]
  have h : (jsTrim s).reverse = ((s.dropWhile jsWs).reverse).dropWhile jsWs := by
    rw [jsTrim, List.reverse_reverse]
  rw [h, dropWhile_dropWhile, ← h, List.reverse_reverse]

/-- C4: for every LineSequence, `extractItems` returns at most 20 items, and
every returned item has a price that passed the `> 0` guard, quantity `1`,
and a non-empty (already trimmed) name. -/
theorem extractItems_bounded_and_wellformed (lines : List Str) :
    (extractItems lines).length ≤ 20 ∧
    ∀ it ∈ extractItems lines,
      it.price.gtZero = true ∧ it.quantity = 1 ∧ it.name ≠ [] ∧ jsTrim it.name = it.name := by
  constructor
  · rw [extractItems]
    exact List.length_take_le 20 _
  · intro it hit
    have hit' : it ∈ (lines.filter (fun l => !isHeaderOrFooter l)).flatMap lineItems :=
      List.mem_of_mem_take hit
    rw [List.mem_flatMap] at hit'
    obtain ⟨l, _, hl⟩ := hit'
    rw [lineItems, List.mem_filterMap] at hl
    obtain ⟨p, _, hp⟩ := hl
    rw [Option.bind_eq_some] at hp
    obtain ⟨m, _, hm⟩ := hp
    simp only [itemFromMatch] at hm
    split at hm
    · split at hm
      · next hcond =>
        rw [Bool.and_eq_true, decide_eq_true_eq] at hcond
        cases hm
        exact ⟨hcond.1, rfl, List.ne_nil_of_length_pos (lt_trans zero_lt_one hcond.2), jsTrim_idem _⟩
      · cases hm
    · split at hm
      · next hcond =>
        rw [Bool.and_eq_true, decide_eq_true_eq] at hcond
        cases hm
        exact ⟨hcond.1, rfl, List.ne_nil_of_length_pos (lt_trans zero_lt_one hcond.2), jsTrim_idem _⟩
      · cases hm

/-- Witness for C4 at `["Infinity 55€"]`, whose single extracted item is
`{name "55", price Infinity, quantity 1}`. -/
theorem extractItems_bounded_and_wellformed_witness :
    (extractItems [("Infinity 55€".toList)]).length ≤ 20 ∧
    JsNum.inf.gtZero = true ∧ ("55".toList) ≠ [] :=
  ⟨(extractItems_bounded_and_wellformed [("Infinity 55€".toList)]).1,
   ((extractItems_bounded_and_wellformed [("Infinity 55€".toList)]).2
      ⟨"55".toList, JsNum.inf, 1⟩ (by decide)).1,
   ((extractItems_bounded_and_wellformed [("Infinity 55€".toList)]).2
      ⟨"55".toList, JsNum.inf, 1⟩ (by decide)).2.2.1⟩

/-- C7: `extractVendor` always returns a non-empty string; when no line
among the first 5 (of length strictly between 3 and 50) matches a vendor
pattern, it returns the first line anywhere of length strictly between 3
and 50, and the fixed placeholder when no such line exists. -/
theorem extractVendor_nonempty_and_fallback (lines : List Str) :
    extractVendor lines ≠ [] ∧
    ((lines.take 5).find? (fun l => substantialLen l && vendorLineTest l) = none →
      extractVendor lines = (lines.find? substantialLen).getD ("Comercio desconocido".toList)) := by
  constructor
  · rw [extractVendor]
    cases h1 : (lines.take 5).find? (fun l => substantialLen l && vendorLineTest l) with
    | some l =>
      have hl := List.find?_some h1
      rw [Bool.and_eq_true, substantialLen, Bool.and_eq_true,
        decide_eq_true_eq, decide_eq_true_eq] at hl
      show l ≠ []
      exact List.ne_nil_of_length_pos (by omega)
    | none =>
      cases h2 : lines.find? substantialLen with
      | some l =>
        have hl := List.find?_some h2
        rw [substantialLen, Bool.and_eq_true, decide_eq_true_eq, decide_eq_true_eq] at hl
        show l ≠ []
        exact List.ne_nil_of_length_pos (by omega)
      | none => decide
  · intro h
    rw [extractVendor, h]
    cases h2 : lines.find? substantialLen <;> rfl

/-- Witness for C7 at the empty LineSequence (placeholder case). -/
theorem extractVendor_nonempty_and_fallback_witness :
    extractVendor [] ≠ [] ∧ extractVendor [] = "Comercio desconocido".toList :=
  ⟨(extractVendor_nonempty_and_fallback []).1,
   (extractVendor_nonempty_and_fallback []).2 (by decide)⟩

/-- C8: `categorizeExpense` is deterministic and total; its label is always
one of the 9 fixed labels; and it returns `Otros` exactly when no category
keyword is a substring of the concatenated lowercase text. -/
theorem categorizeExpense_deterministic_total (lines : List Str) :
    categorizeExpense lines = categorizeExpense lines ∧
    categorizeExpense lines ∈ categoryLabels ∧
    (categorizeExpense lines = "Otros".toList ↔
      ∀ p ∈ categories, ∀ k ∈ p.2, strContains (fullTextOf lines) k = false) := by
  refine ⟨rfl, ?_, ?_⟩
  · rw [categorizeExpense]
    cases hfind : categories.find? (fun p => p.2.any (fun k => strContains (fullTextOf lines) k)) with
    | some p =>
      have hmem := List.mem_of_find?_eq_some hfind
      have hall : ∀ q ∈ categories, q.1 ∈ categoryLabels := by decide
      exact hall p hmem
    | none => decide
  · rw [categorizeExpense]
    cases hfind : categories.find? (fun p => p.2.any (fun k => strContains (fullTextOf lines) k)) with
    | some p =>
      have hmem := List.mem_of_find?_eq_some hfind
      have hne : ∀ q ∈ categories, q.1 ≠ "Otros".toList := by decide
      have hp := List.find?_some hfind
      rw [List.any_eq_true] at hp
      obtain ⟨k, hk, hck⟩ := hp
      constructor
      · intro habs
        exact absurd habs (hne p hmem)
      · intro hall
        rw [hall p hmem k hk] at hck
        cases hck
    | none =>
      constructor
      · intro _ p hp k hk
        have hpred := List.find?_eq_none.mp hfind p hp
        cases hck : strContains (fullTextOf lines) k with
        | false => rfl
        | true =>
          exact absurd (List.any_eq_true.mpr ⟨k, hk, hck⟩) hpred
      · intro _
        rfl

/-- C9 counterexample: no keyword at all is shared between the `Ropa` and
`Hogar` keyword lists. -/
theorem no_keyword_shared_between_ropa_and_hogar :
    (categories.any (fun p => categories.any (fun q =>
      p.1 = "Ropa".toList && q.1 = "Hogar".toList &&
      p.2.any (fun k => q.2.contains k)))) = false := by
  decide

/-- Helper: when the first category of the table has a matching keyword, the
classifier returns that category. -/
theorem categorizeExpense_head_pos (lines : List Str) (c : Str × List Str)
    (rest : List (Str × List Str)) (hc : categories = c :: rest)
    (h : c.2.any (fun k => strContains (fullTextOf lines) k) = true) :
    categorizeExpense lines = c.1 := by
  rw [categorizeExpense, hc, List.find?_cons_of_pos rest h]

/-- C9 (amended): duplicated keywords exist — `carrefour` appears under both
`Alimentación` and `Hogar`, and `el corte inglés` under both `Alimentación`
and `Ropa` (none is shared between `Ropa` and `Hogar`) — and for any text
containing such a duplicated keyword the category earlier in table order
(here `Alimentación`, the first) wins. -/
theorem duplicated_keywords_earlier_category_wins :
    (∃ p ∈ categories, ∃ q ∈ categories, p.1 ≠ q.1 ∧
      ("carrefour".toList ∈ p.2 ∧ "carrefour".toList ∈ q.2)) ∧
    (∃ p ∈ categories, ∃ q ∈ categories, p.1 ≠ q.1 ∧
      ("el corte inglés".toList ∈ p.2 ∧ "el corte inglés".toList ∈ q.2)) ∧
    (∀ lines, strContains (fullTextOf lines) ("carrefour".toList) = true →
      categorizeExpense lines = "Alimentación".toList) ∧
    (∀ lines, strContains (fullTextOf lines) ("el corte inglés".toList) = true →
      categorizeExpense lines = "Alimentación".toList) := by
  refine ⟨by decide, by decide, ?_, ?_⟩
  · intro lines h
    refine categorizeExpense_head_pos lines _ _ rfl ?_
    rw [List.any_eq_true]
    exact ⟨"carrefour".toList, by decide, h⟩
  · intro lines h
    refine categorizeExpense_head_pos lines _ _ rfl ?_
    rw [List.any_eq_true]
    exact ⟨"el corte inglés".toList, by decide, h⟩

/-- Witness for the amended C9 at `["carrefour"]`. -/
theorem duplicated_keywords_earlier_category_wins_witness :
    categorizeExpense [("carrefour".toList)] = "Alimentación".toList :=
  duplicated_keywords_earlier_category_wins.2.2.1 [("carrefour".toList)] (by decide)

/-- C1 (evaluation at the claimed input): vendor, date, total and category
come out as the claim states, but `items` is empty — the capture-order check
of `extractItems` never fires, so the name/price captures are swapped and
`parseFloat("Pan integral")` is `NaN` — where the claim (and the unit test)
expects the two items. -/
theorem c1_roundtrip_scenario_items_empty (today : Nat × Nat × Nat) :
    (parseReceiptData c1FullText today).vendor = "MERCADONA S.A.".toList ∧
    (parseReceiptData c1FullText today).date = "2024-01-15".toList ∧
    (parseReceiptData c1FullText today).total = JsNum.num (43 / 10 : ℚ) ∧
    (parseReceiptData c1FullText today).category = "Alimentación".toList ∧
    (parseReceiptData c1FullText today).items = [] := by
  refine ⟨rfl, rfl, ?_, rfl, rfl⟩
  have hdiv : Rat.divInt 43 10 = (43 / 10 : ℚ) := by
    norm_num [Rat.divInt_eq_div]
  calc (parseReceiptData c1FullText today).total
      = JsNum.num (Rat.divInt 43 10) := rfl
    _ = JsNum.num (43 / 10 : ℚ) := by rw [hdiv]

/-- C2 (evaluation at a failing input): the line `"Pan integral 2.50€"`
passes the header/footer filter and matches the name-first pattern with text
capture `"Pan integral"` and numeric capture `"2.50"`; the numeric capture
parses `> 0` and the trimmed text capture has length `> 1` — yet no item at
all is produced, because the capture-order needle occurs in no pattern
source, so the fields are assigned swapped and `parseFloat("Pan integral")`
is `NaN`. -/
theorem c2_name_first_match_appends_nothing :
    matchNameNum euroEnd ("Pan integral 2.50€".toList) =
      some ("Pan integral".toList, "2.50".toList) ∧
    isHeaderOrFooter ("Pan integral 2.50€".toList) = false ∧
    (jsParseFloat (replaceFirst ',' '.' ("2.50".toList))).gtZero = true ∧
    1 < (jsTrim ("Pan integral".toList)).length ∧
    (itemPatternSources.all (fun src => !strContains src orderCheckNeedle)) = true ∧
    extractItems [("Pan integral 2.50€".toList)] = [] := by
  exact ⟨by decide, by decide, by decide, by decide, by decide, by decide⟩

/-- C3: parsing the empty full text yields the documented fallback record —
placeholder vendor, today's date, zero total, no items, `Otros`, confidence
`0.85`, empty raw text — with no error path. -/
theorem parseReceiptData_empty_fulltext (today : Nat × Nat × Nat) :
    parseReceiptData [] today =
      { vendor := "Comercio desconocido".toList
        date := formatYMD today.1 today.2.1 today.2.2
        total := JsNum.num 0
        items := []
        category := "Otros".toList
        confidence := (0.85 : ℚ)
        rawText := [] } := by
  have h : (0.85 : ℚ) = Rat.divInt 85 100 := by
    norm_num [Rat.divInt_eq_div]
  rw [h]
  rfl

/-- C10: on the single ISO year-first line `"2024-01-15"` the day-month-year
pattern matches the substring `"24-01-15"` first, so the date is read as day
24, month 01, two-digit year 15 (expanded to 2015), giving `"2015-01-24"`. -/
theorem extractDate_iso_line_misparsed (today : Nat × Nat × Nat) :
    extractDate [("2024-01-15".toList)] today = "2015-01-24".toList := rfl

example : isValidDateStr ("2024-01-15".toList) = true := by decide

example : isValidDateStr ("2024-02-30".toList) = false := by decide

theorem digitChar_spec {n : Nat} (h : n < 10) :
    isDigit (digitChar n) = true ∧ (digitChar n).toNat - 48 = n := by
  interval_cases n <;> exact ⟨by decide, by decide⟩

theorem strToNat_append_single (xs : Str) (c : Char) :
    strToNat (xs ++ [c]) = strToNat xs * 10 + (c.toNat - 48) := by
  rw [strToNat, strToNat, List.foldl_append]
  rfl

theorem natToStrAux_spec : ∀ f n, n < 10 ^ f →
    (natToStrAux f n).all isDigit = true ∧ strToNat (natToStrAux f n) = n := by
  intro f
  induction f with
  | zero =>
    intro n hn
    interval_cases n
    exact ⟨rfl, rfl⟩
  | succ f ih =>
    intro n hn
    rw [natToStrAux]
    by_cases h10 : n < 10
    · rw [if_pos h10]
      refine ⟨by simp [(digitChar_spec h10).1], ?_⟩
      show strToNat ([] ++ [digitChar n]) = n
      rw [strToNat_append_single, (digitChar_spec h10).2]
      simp [strToNat]
    · rw [if_neg h10]
      have hdiv : n / 10 < 10 ^ f := by
        rw [Nat.div_lt_iff_lt_mul (by norm_num)]
        calc n < 10 ^ (f + 1) := hn
          _ = 10 ^ f * 10 := by ring
      obtain ⟨ha, hv⟩ := ih (n / 10) hdiv
      have hm : n % 10 < 10 := Nat.mod_lt _ (by norm_num)
      constructor
      · rw [List.all_append, Bool.and_eq_true]
        exact ⟨ha, by simp [(digitChar_spec hm).1]⟩
      · rw [strToNat_append_single, hv, (digitChar_spec hm).2]
        omega

theorem natToStrAux_length : ∀ f n k, n < 10 ^ k → 0 < k →
    (natToStrAux f n).length ≤ k := by
  intro f
  induction f with
  | zero =>
    intro n k _ _
    simp [natToStrAux]
  | succ f ih =>
    intro n k hn hk
    rw [natToStrAux]
    by_cases h10 : n < 10
    · rw [if_pos h10]
      simpa using hk
    · rw [if_neg h10]
      have hk2 : 2 ≤ k := by
        rcases Nat.lt_or_ge k 2 with hlt | hge
        · interval_cases k
          · norm_num at hn
            omega
        · exact hge
      have hdiv : n / 10 < 10 ^ (k - 1) := by
        rw [Nat.div_lt_iff_lt_mul (by norm_num)]
        have hpow : 10 ^ (k - 1) * 10 = 10 ^ k := by
          rw [← pow_succ]
          congr 1
          omega
        omega
      have := ih (n / 10) (k - 1) hdiv (by omega)
      rw [List.length_append]
      simp only [List.length_cons, List.length_nil]
      omega

theorem padStart_length {k : Nat} {s : Str} (c : Char) (h : s.length ≤ k) :
    (padStart k c s).length = k := by
  rw [padStart, List.length_append, List.length_replicate]
  omega

theorem padStart_all_digit {k : Nat} {s : Str} (h : s.all isDigit = true) :
    (padStart k '0' s).all isDigit = true := by
  rw [padStart, List.all_append, Bool.and_eq_true]
  refine ⟨?_, h⟩
  rw [List.all_eq_true]
  intro c hc
  rw [List.mem_replicate] at hc
  rw [hc.2]
  decide

theorem foldl_digits_zeros (n : Nat) :
    List.foldl (fun a c => a * 10 + (c.toNat - 48)) 0 (List.replicate n '0') = 0 := by
  induction n with
  | zero => rfl
  | succ n ih =>
    rw [List.replicate_succ]
    simpa using ih

theorem strToNat_padStart (k : Nat) (s : Str) :
    strToNat (padStart k '0' s) = strToNat s := by
  rw [padStart, strToNat, List.foldl_append, foldl_digits_zeros]
  rfl

theorem foldl_digits_lt : ∀ (s : Str), s.all isDigit = true →
    ∀ a, List.foldl (fun a c => a * 10 + (c.toNat - 48)) a s < (a + 1) * 10 ^ s.length := by
  intro s
  induction s with
  | nil =>
    intro _ a
    simp
  | cons c t ih =>
    intro h a
    rw [List.all_cons, Bool.and_eq_true] at h
    have hc : c.toNat - 48 ≤ 9 := by
      have h1 := h.1
      rw [isDigit, Bool.and_eq_true, decide_eq_true_eq, decide_eq_true_eq] at h1
      have h2 : c.toNat ≤ 57 := by
        have h3 := h1.2
        rw [Char.le_def] at h3
        exact h3
      omega
    have hrec := ih h.2 (a * 10 + (c.toNat - 48))
    have hstep : List.foldl (fun a c => a * 10 + (c.toNat - 48)) a (c :: t) =
        List.foldl (fun a c => a * 10 + (c.toNat - 48)) (a * 10 + (c.toNat - 48)) t := rfl
    rw [hstep, List.length_cons, pow_succ]
    calc List.foldl (fun a c => a * 10 + (c.toNat - 48)) (a * 10 + (c.toNat - 48)) t
        < (a * 10 + (c.toNat - 48) + 1) * 10 ^ t.length := hrec
      _ ≤ ((a + 1) * 10) * 10 ^ t.length := by
          apply Nat.mul_le_mul_right
          omega
      _ = (a + 1) * (10 ^ t.length * 10) := by ring

theorem strToNat_lt {s : Str} (h : s.all isDigit = true) :
    strToNat s < 10 ^ s.length := by
  have h0 := foldl_digits_lt s h 0
  simpa [strToNat] using h0

theorem jsDateCheck_valid {ys ms ds : Str} {y m d : Nat}
    (h : jsDateCheck ys ms ds = some (y, m, d)) : validYMD y m d := by
  rw [jsDateCheck] at h
  split at h
  · next hcond =>
    split at h
    · next hrange =>
      cases h
      simp only [Bool.and_eq_true, decide_eq_true_eq] at hcond hrange
      refine ⟨?_, hrange.1.1.1, hrange.1.1.2, hrange.1.2, hrange.2⟩
      have hlt := strToNat_lt hcond.1.1.2
      rw [hcond.1.1.1] at hlt
      omega
    · cases h
  · cases h

theorem daysInMonth_le_31 (y m : Nat) : daysInMonth y m ≤ 31 := by
  unfold daysInMonth
  split <;> first
    | omega
    | (split <;> omega)

theorem nat_lt_ten_pow_succ (n : Nat) : n < 10 ^ (n + 1) :=
  lt_of_lt_of_le (Nat.lt_two_pow n)
    (le_trans (Nat.pow_le_pow_left (by norm_num) n)
      (Nat.pow_le_pow_right (by norm_num) (Nat.le_succ n)))

theorem formatYMD_valid {y m d : Nat} (h : validYMD y m d) :
    isValidDateStr (formatYMD y m d) = true := by
  obtain ⟨hy, hm1, hm2, hd1, hd2⟩ := h
  have hd31 : d ≤ 31 := le_trans hd2 (daysInMonth_le_31 y m)
  have hylen : (natToStr y).length ≤ 4 :=
    natToStrAux_length _ y 4 (by omega) (by norm_num)
  have hmlen : (natToStr m).length ≤ 2 :=
    natToStrAux_length _ m 2 (by omega) (by norm_num)
  have hdlen : (natToStr d).length ≤ 2 :=
    natToStrAux_length _ d 2 (by omega) (by norm_num)
  have hyspec := natToStrAux_spec (y + 1) y (nat_lt_ten_pow_succ y)
  have hmspec := natToStrAux_spec (m + 1) m (nat_lt_ten_pow_succ m)
  have hdspec := natToStrAux_spec (d + 1) d (nat_lt_ten_pow_succ d)
  have hP4len : (padStart 4 '0' (natToStr y)).length = 4 := padStart_length '0' hylen
  have hP2mlen : (padStart 2 '0' (natToStr m)).length = 2 := padStart_length '0' hmlen
  have hP2dlen : (padStart 2 '0' (natToStr d)).length = 2 := padStart_length '0' hdlen
  have hP4all : (padStart 4 '0' (natToStr y)).all isDigit = true :=
    padStart_all_digit hyspec.1
  have hP2mall : (padStart 2 '0' (natToStr m)).all isDigit = true :=
    padStart_all_digit hmspec.1
  have hP2dall : (padStart 2 '0' (natToStr d)).all isDigit = true :=
    padStart_all_digit hdspec.1
  have hP4val : strToNat (padStart 4 '0' (natToStr y)) = y := by
    rw [strToNat_padStart]
    exact hyspec.2
  have hP2mval : strToNat (padStart 2 '0' (natToStr m)) = m := by
    rw [strToNat_padStart]
    exact hmspec.2
  have hP2dval : strToNat (padStart 2 '0' (natToStr d)) = d := by
    rw [strToNat_padStart]
    exact hdspec.2
  rw [formatYMD]
  have htake4 : ((padStart 4 '0' (natToStr y)) ++ '-' ::
      (padStart 2 '0' (natToStr m) ++ '-' :: padStart 2 '0' (natToStr d))).take 4 =
      padStart 4 '0' (natToStr y) := List.take_left' hP4len
  have hdrop4 : ((padStart 4 '0' (natToStr y)) ++ '-' ::
      (padStart 2 '0' (natToStr m) ++ '-' :: padStart 2 '0' (natToStr d))).drop 4 =
      '-' :: (padStart 2 '0' (natToStr m) ++ '-' :: padStart 2 '0' (natToStr d)) :=
    List.drop_left' hP4len
  have hdrop5 : ((padStart 4 '0' (natToStr y)) ++ '-' ::
      (padStart 2 '0' (natToStr m) ++ '-' :: padStart 2 '0' (natToStr d))).drop 5 =
      padStart 2 '0' (natToStr m) ++ '-' :: padStart 2 '0' (natToStr d) := by
    rw [show (5 : ℕ) = 4 + 1 from rfl, ← List.drop_drop, hdrop4]
    rfl
  have htakem : (padStart 2 '0' (natToStr m) ++ '-' :: padStart 2 '0' (natToStr d)).take 2 =
      padStart 2 '0' (natToStr m) := List.take_left' hP2mlen
  have hdropm : (padStart 2 '0' (natToStr m) ++ '-' :: padStart 2 '0' (natToStr d)).drop 2 =
      '-' :: padStart 2 '0' (natToStr d) := List.drop_left' hP2mlen
  have hdrop8 : ((padStart 4 '0' (natToStr y)) ++ '-' ::
      (padStart 2 '0' (natToStr m) ++ '-' :: padStart 2 '0' (natToStr d))).drop 8 =
      padStart 2 '0' (natToStr d) := by
    rw [show (8 : ℕ) = 5 + 3 from rfl, ← List.drop_drop, hdrop5,
      show (3 : ℕ) = 2 + 1 from rfl, ← List.drop_drop, hdropm]
    rfl
  have hget4 : ((padStart 4 '0' (natToStr y)) ++ '-' ::
      (padStart 2 '0' (natToStr m) ++ '-' :: padStart 2 '0' (natToStr d))).get? 4 =
      some '-' := by
    rw [List.get?_append_right (by omega)]
    rw [hP4len]
    rfl
  have hget7 : ((padStart 4 '0' (natToStr y)) ++ '-' ::
      (padStart 2 '0' (natToStr m) ++ '-' :: padStart 2 '0' (natToStr d))).get? 7 =
      some '-' := by
    rw [List.get?_append_right (by omega)]
    rw [hP4len]
    show ('-' :: (padStart 2 '0' (natToStr m) ++ '-' :: padStart 2 '0' (natToStr d))).get? 3 =
      some '-'
    rw [List.get?_cons_succ, List.get?_append_right (by omega)]
    rw [hP2mlen]
    rfl
  have htaked : (padStart 2 '0' (natToStr d)).take 2 = padStart 2 '0' (natToStr d) :=
    List.take_all_of_le (by omega)
  rw [isValidDateStr]
  simp only [htake4, hdrop5, hdrop8, htakem, htaked, hget4, hget7, hP4val, hP2mval, hP2dval,
    hP4all, hP2mall, hP2dall, Bool.and_eq_true, decide_eq_true_eq, and_true]
  refine ⟨⟨⟨⟨?_, hm1⟩, hm2⟩, hd1⟩, hd2⟩
  rw [List.length_append, List.length_cons, List.length_append, List.length_cons,
    hP4len, hP2mlen, hP2dlen]

/-- C6: for every LineSequence and valid current date, `extractDate` returns
a syntactically valid `YYYY-MM-DD` calendar-date string; in particular when
no line yields a valid date it returns the current date so formatted. -/
theorem extractDate_always_valid (lines : List Str) (today : Nat × Nat × Nat)
    (h : validYMD today.1 today.2.1 today.2.2) :
    isValidDateStr (extractDate lines today) = true := by
  rw [extractDate]
  cases hfind : firstSome (fun line => firstSome (fun p => tryDatePattern p line) datePatterns)
      lines with
  | some s =>
    obtain ⟨line, _, hline⟩ := firstSome_eq_some hfind
    obtain ⟨p, _, hp⟩ := firstSome_eq_some hline
    rw [tryDatePattern, Option.bind_eq_some] at hp
    obtain ⟨cap, _, hcap⟩ := hp
    cases hcheck : jsDateCheck (fullYearOf cap.2.2) cap.2.1 cap.1 with
    | none =>
      rw [hcheck] at hcap
      cases hcap
    | some ymd =>
      obtain ⟨Y, M, D⟩ := ymd
      rw [hcheck] at hcap
      cases hcap
      exact formatYMD_valid (jsDateCheck_valid hcheck)
  | none => exact formatYMD_valid h

/-- Witness for C6 at the empty LineSequence with today = 2026-10-11. -/
theorem extractDate_always_valid_witness :
    validYMD 2026 10 11 ∧ isValidDateStr (extractDate [] (2026, 10, 11)) = true :=
  ⟨by decide, extractDate_always_valid [] (2026, 10, 11) (by decide)⟩

end NubemDom
